import Mathlib

/-!
Shallow embedding of the price-monitoring subsystem of the flight-search-app
repository (backend services `monitoringService` and `schedulerService`,
src/backend/src/server.ts), together with theorems settling the frozen claims
about it.

Modelling conventions:
* Prices are embedded as exact rationals `ℚ` (the source uses IEEE doubles /
  Postgres DOUBLE PRECISION).  All concrete prices appearing in the claims are
  small decimals for which the float and rational comparisons agree.
* Timestamps (`recordedAt`, `lastCheckedAt`) are embedded as `Nat` counters.
* The Prisma/PostgreSQL store is embedded as an explicit `Store` record of
  three lists (jobs, price-history rows, alerts) in insertion order.
  `orderBy` clauses are embedded as stable insertion sorts over the stored
  lists; PostgreSQL sorts `NULL` last under `ASC`, which is reflected in the
  job ordering relation `jobLE`.
* `async` methods whose failure behaviour a claim is about are embedded with
  an explicit fault oracle deciding which store operation fails; a failed
  operation leaves the store unchanged and the error propagates like a
  rejected promise.
-/

namespace FlightSearchApp

/-- Price of a flight offer (`flight.price` in src/backend/src/types/flight.ts). -/
structure Price where
  amount : ℚ
  currency : String
deriving DecidableEq

/-- Departure/arrival endpoint of a flight (`flight.departure` / `flight.arrival`). -/
structure Endpoint where
  airport : String
  time : String
deriving DecidableEq

/-- Normalized flight offer (interface `Flight` in src/backend/src/types/flight.ts;
only the fields read by the monitoring subsystem are embedded). -/
structure Flight where
  id : String
  airline : String
  airlineCode : String
  flightNumber : String
  departure : Endpoint
  arrival : Endpoint
  duration : String
  stops : Nat
  price : Price
deriving DecidableEq

/-- A `PriceHistory` row (Prisma model, prisma/migrations 20260216000000_init). -/
structure PriceHistoryEntry where
  monitoringJobId : String
  flightId : String
  airline : String
  airlineCode : String
  flightNumber : String
  departureTime : String
  arrivalTime : String
  duration : String
  stops : Nat
  price : ℚ
  currency : String
  bookingDate : String
  travelDate : String
  recordedAt : Nat
deriving DecidableEq

/-- The flight snapshot serialized into `PriceAlert.flightDetails`
(`JSON.stringify({airline, flightNumber, departureTime, arrivalTime, duration, stops})`
in `MonitoringService.checkForPriceDrops`). -/
structure FlightDetails where
  airline : String
  flightNumber : String
  departureTime : String
  arrivalTime : String
  duration : String
  stops : Nat
deriving DecidableEq

/-- A `PriceAlert` row (Prisma model). -/
structure PriceAlert where
  monitoringJobId : String
  alertType : String
  oldPrice : ℚ
  newPrice : ℚ
  percentageChange : ℚ
  flightDetails : FlightDetails
  isRead : Bool
deriving DecidableEq

/-- A `MonitoringJob` row (Prisma model; only the fields the scheduler and the
registry read are embedded). -/
structure MonitoringJob where
  id : String
  origin : String
  destination : String
  departureDate : String
  returnDate : Option String
  adults : Nat
  travelClass : String
  airlines : Option String
  isActive : Bool
  checkIntervalHours : Nat
  lastCheckedAt : Option Nat
deriving DecidableEq

/-- The persistent store: the three Prisma tables, each in row-insertion order. -/
structure Store where
  jobs : List MonitoringJob
  history : List PriceHistoryEntry
  alerts : List PriceAlert
deriving DecidableEq

/-! ### Stable sorting by key

JavaScript `Array.prototype.sort` with comparator `(a, b) => k(a) - k(b)` is a
stable sort by `k` ascending; Prisma `orderBy: {field: 'asc'}` is embedded the
same way (tie order among equal keys is unspecified by PostgreSQL; the stable
sort is a deterministic refinement). -/

/-- Comparison by a key into a linear order. -/
def keyLE {α β : Type} [LinearOrder β] (k : α → β) (a b : α) : Prop := k a ≤ k b

instance {α β : Type} [LinearOrder β] (k : α → β) : DecidableRel (keyLE k) :=
  fun a b => inferInstanceAs (Decidable (k a ≤ k b))

instance {α β : Type} [LinearOrder β] (k : α → β) : IsTotal α (keyLE k) :=
  ⟨fun a b => le_total (k a) (k b)⟩

instance {α β : Type} [LinearOrder β] (k : α → β) : IsTrans α (keyLE k) :=
  ⟨fun _ _ _ hab hbc => le_trans hab hbc⟩

/-- Stable sort by a key, ascending. -/
def sortByKey {α β : Type} [LinearOrder β] (k : α → β) (l : List α) : List α :=
  List.insertionSort (keyLE k) l

/-- The in-place sort in `MonitoringService.recordPriceSnapshot`:
`flights.sort((a, b) => a.price.amount - b.price.amount)`. -/
def sortFlightsByPrice (flights : List Flight) : List Flight :=
  sortByKey (fun f => f.price.amount) flights

/-- Date prefix of an ISO timestamp string: `t.split('T')[0]`. -/
def datePart (t : String) : String := (t.splitOn "T").headD ""

/-- The row built for each selected flight inside
`MonitoringService.recordPriceSnapshot`. -/
def entryOfFlight (jobId : String) (now : Nat) (bookingDate : String)
    (flight : Flight) : PriceHistoryEntry :=
  { monitoringJobId := jobId
    flightId := flight.id
    airline := flight.airline
    airlineCode := flight.airlineCode
    flightNumber := flight.flightNumber
    departureTime := flight.departure.time
    arrivalTime := flight.arrival.time
    duration := flight.duration
    stops := flight.stops
    price := flight.price.amount
    currency := flight.price.currency
    bookingDate := bookingDate
    travelDate := datePart flight.departure.time
    recordedAt := now }

/-- Embeds `MonitoringService.recordPriceSnapshot(jobId, flights)`.
Returns the updated store, paired with the caller's `flights` array as it is
observable after the call (JavaScript `Array.prototype.sort` mutates the array
in place; the early return for an empty list leaves it untouched).
`now` stands for the database `recordedAt` write-time default and
`bookingDate` for `new Date().toISOString().split('T')[0]`, both taken once
per call. -/
def recordPriceSnapshot (s : Store) (jobId : String) (flights : List Flight)
    (now : Nat) (bookingDate : String) : Store × List Flight :=
  if flights = [] then (s, flights)
  else
    let sorted := sortFlightsByPrice flights
    let cheapestFlights := sorted.take 3
    let priceRecords := cheapestFlights.map (entryOfFlight jobId now bookingDate)
    ({ s with history := s.history ++ priceRecords }, sorted)

/-- The `where` clause of the `priceAlert.findFirst` existing-alert lookup in
`MonitoringService.checkForPriceDrops`. -/
def matchesTriple (jobId : String) (oldP newP : ℚ) (a : PriceAlert) : Bool :=
  decide (a.monitoringJobId = jobId ∧ a.oldPrice = oldP ∧ a.newPrice = newP)

/-- Whether `priceAlert.findFirst` finds an alert for the exact
`(jobId, oldPrice, newPrice)` triple. -/
def existingAlert (s : Store) (jobId : String) (oldP newP : ℚ) : Bool :=
  s.alerts.any (matchesTriple jobId oldP newP)

/-- Number of stored alerts matching a given `(jobId, oldPrice, newPrice)` triple. -/
def countTriple (s : Store) (jobId : String) (oldP newP : ℚ) : Nat :=
  s.alerts.countP (matchesTriple jobId oldP newP)

/-- The alert row inserted by `priceAlert.create` in
`MonitoringService.checkForPriceDrops`. -/
def priceDropAlert (jobId : String) (firstPrice latestPrice percentChange : ℚ)
    (latest : PriceHistoryEntry) : PriceAlert :=
  { monitoringJobId := jobId
    alertType := "PRICE_DROP"
    oldPrice := firstPrice
    newPrice := latestPrice
    percentageChange := -percentChange
    flightDetails :=
      { airline := latest.airline
        flightNumber := latest.flightNumber
        departureTime := latest.departureTime
        arrivalTime := latest.arrivalTime
        duration := latest.duration
        stops := latest.stops }
    isRead := false }

/-- The job's full price history as loaded at the top of
`MonitoringService.checkForPriceDrops`:
`priceHistory.findMany({where: {monitoringJobId}, orderBy: {recordedAt: 'asc'}})`. -/
def historyFor (s : Store) (jobId : String) : List PriceHistoryEntry :=
  sortByKey (fun e => e.recordedAt)
    (s.history.filter (fun e => decide (e.monitoringJobId = jobId)))

/-- Distinct flight ids of a history, in first-occurrence order — the key
order of the JavaScript `Map` built by the grouping loop in
`checkForPriceDrops` (`Map` iteration follows insertion order). -/
def flightIdsInOrder (history : List PriceHistoryEntry) : List String :=
  history.foldl (fun acc r => if r.flightId ∈ acc then acc else acc ++ [r.flightId]) []

/-- The `flightGroups` map of `checkForPriceDrops`, as an association list in
`Map` iteration order; each group keeps the history's row order. -/
def flightGroups (history : List PriceHistoryEntry) :
    List (String × List PriceHistoryEntry) :=
  (flightIdsInOrder history).map
    (fun fid => (fid, history.filter (fun r => decide (r.flightId = fid))))

/-- Body of the per-group loop of `checkForPriceDrops`: groups with fewer than
2 rows are skipped; otherwise `percentChange = (firstPrice - latestPrice) /
firstPrice * 100` is computed and, when it is at least 10 and no alert with
the exact `(jobId, firstPrice, latestPrice)` triple exists, a new alert is
appended. -/
def processGroup (jobId : String) (s : Store)
    (records : List PriceHistoryEntry) : Store :=
  match records with
  | [] => s
  | [_] => s
  | r0 :: r1 :: rs =>
    let latest := List.getLastD (r1 :: rs) r0
    let firstPrice := r0.price
    let latestPrice := latest.price
    let percentChange := (firstPrice - latestPrice) / firstPrice * 100
    if 10 ≤ percentChange then
      if existingAlert s jobId firstPrice latestPrice then s
      else
        let a := priceDropAlert jobId firstPrice latestPrice percentChange latest
        { s with alerts := s.alerts ++ [a] }
    else s

/-- Embeds `MonitoringService.checkForPriceDrops(jobId)` (no store failures). -/
def checkForPriceDrops (s : Store) (jobId : String) : Store :=
  let history := historyFor s jobId
  if history.length < 2 then s
  else (flightGroups history).foldl (fun acc g => processGroup jobId acc g.2) s

/-- The divisors actually used by the `percentChange` computation of
`checkForPriceDrops` on a job's history: one per flight-id group with at
least two rows (the division happens before the 10-percent test, so every
such group contributes its first observed price). -/
def divisorsUsed (s : Store) (jobId : String) : List ℚ :=
  let history := historyFor s jobId
  if history.length < 2 then []
  else (flightGroups history).filterMap
    (fun g => match g.2 with
      | [] => none
      | [_] => none
      | r0 :: _ :: _ => some r0.price)

/-- Embeds `MonitoringService.updateJobLastChecked(jobId)`. -/
def updateJobLastChecked (s : Store) (jobId : String) (now : Nat) : Store :=
  let touched :=
    s.jobs.map (fun j => if j.id = jobId then { j with lastCheckedAt := some now } else j)
  { s with jobs := touched }

/-- Embeds `MonitoringService.getJobById(jobId)` restricted to the job record
itself (the bounded history/alert includes are not needed by the claims);
`findUnique` yields `null` — here `none` — when the id is unknown. -/
def getJobById (s : Store) (jobId : String) : Option MonitoringJob :=
  s.jobs.find? (fun j => decide (j.id = jobId))

/-! ### Job registry: active-job listing

`MonitoringService.getActiveJobs` runs
`monitoringJob.findMany({where: {isActive: true}, orderBy: {lastCheckedAt: 'asc'}})`.
The store is PostgreSQL (prisma migration dialect, DEPLOYMENT.md), whose
`ORDER BY ... ASC` places `NULL` values last; `jobLE` is that ordering. -/

/-- PostgreSQL ascending order on a nullable timestamp: `NULL` sorts last. -/
def jobLE (a b : MonitoringJob) : Prop :=
  match a.lastCheckedAt, b.lastCheckedAt with
  | none, none => True
  | none, some _ => False
  | some _, none => True
  | some x, some y => x ≤ y

instance : DecidableRel jobLE := fun a b => by
  unfold jobLE
  rcases a.lastCheckedAt with _ | x <;> rcases b.lastCheckedAt with _ | y
  · exact isTrue trivial
  · exact isFalse (fun h => h)
  · exact isTrue trivial
  · exact Nat.decLe x y

instance : IsTotal MonitoringJob jobLE := by
  constructor
  intro a b
  unfold jobLE
  rcases a.lastCheckedAt with _ | x <;> rcases b.lastCheckedAt with _ | y <;> simp
  exact Nat.le_total x y

instance : IsTrans MonitoringJob jobLE := by
  constructor
  intro a b c
  unfold jobLE
  rcases a.lastCheckedAt with _ | x <;> rcases b.lastCheckedAt with _ | y <;>
    rcases c.lastCheckedAt with _ | z <;> simp
  omega

/-- Embeds `MonitoringService.getActiveJobs()`. -/
def getActiveJobs (s : Store) : List MonitoringJob :=
  List.insertionSort jobLE (s.jobs.filter (fun j => j.isActive))

/-! ### Cascade delete with an explicit fault oracle

`MonitoringService.deleteJob` issues three separate store operations in
sequence — `priceAlert.deleteMany`, `priceHistory.deleteMany`,
`monitoringJob.delete` — with no surrounding transaction.  The fault oracle
says which of those operations rejects; a rejected operation leaves the store
as it was at that point and the error propagates out of the method. -/

/-- The three store operations issued by `deleteJob`, in program order. -/
inductive DbOp where
  | delAlerts
  | delHistory
  | delJob
deriving DecidableEq

/-- Embeds `MonitoringService.deleteJob(jobId)`; returns the store after the
call together with the propagated error, if any (`monitoringJob.delete` also
rejects when no row has the given id). -/
def deleteJob (fail : DbOp → Bool) (s : Store) (jobId : String) :
    Store × Option String :=
  if fail .delAlerts then (s, some "priceAlert.deleteMany failed")
  else
    let s1 : Store :=
      { s with alerts := s.alerts.filter (fun a => !decide (a.monitoringJobId = jobId)) }
    if fail .delHistory then (s1, some "priceHistory.deleteMany failed")
    else
      let s2 : Store :=
        { s1 with history := s1.history.filter (fun e => !decide (e.monitoringJobId = jobId)) }
      if fail .delJob then (s2, some "monitoringJob.delete failed")
      else if s2.jobs.any (fun j => decide (j.id = jobId)) then
        ({ s2 with jobs := s2.jobs.filter (fun j => !decide (j.id = jobId)) }, none)
      else (s2, some "monitoringJob.delete: record not found")

/-- The all-operations-succeed fault oracle. -/
def noFail : DbOp → Bool := fun _ => false

/-- Fault oracle for which exactly the `priceHistory.deleteMany` step rejects. -/
def failHistoryOp : DbOp → Bool := fun op => decide (op = DbOp.delHistory)

/-! ### Drop detector with an explicit fault oracle

The per-group loop body of `checkForPriceDrops` performs two awaited store
operations (the `findFirst` lookup and the `create` insert) with no try/catch
inside the loop; a rejection there rejects the whole `checkForPriceDrops`
promise.  `failG fid` says that the store operation issued while evaluating
the group with flight id `fid` rejects. -/

/-- Loop body of `checkForPriceDrops` with the fault oracle. -/
def processGroupF (failG : String → Bool) (jobId : String) (s : Store)
    (fid : String) (records : List PriceHistoryEntry) : Store × Option String :=
  match records with
  | [] => (s, none)
  | [_] => (s, none)
  | r0 :: r1 :: rs =>
    let latest := List.getLastD (r1 :: rs) r0
    let firstPrice := r0.price
    let latestPrice := latest.price
    let percentChange := (firstPrice - latestPrice) / firstPrice * 100
    if 10 ≤ percentChange then
      if failG fid then (s, some "priceAlert store operation failed")
      else if existingAlert s jobId firstPrice latestPrice then (s, none)
      else
        let a := priceDropAlert jobId firstPrice latestPrice percentChange latest
        ({ s with alerts := s.alerts ++ [a] }, none)
    else (s, none)

/-- The `for (const [flightId, records] of flightGroups)` loop with the fault
oracle: an error thrown while evaluating one group propagates immediately and
the remaining groups are never evaluated. -/
def runGroupsF (failG : String → Bool) (jobId : String) :
    List (String × List PriceHistoryEntry) → Store → Store × Option String
  | [], s => (s, none)
  | g :: rest, s =>
    match processGroupF failG jobId s g.1 g.2 with
    | (s1, none) => runGroupsF failG jobId rest s1
    | (s1, some e) => (s1, some e)

/-- Embeds `MonitoringService.checkForPriceDrops(jobId)` with the fault oracle. -/
def checkForPriceDropsF (failG : String → Bool) (s : Store) (jobId : String) :
    Store × Option String :=
  let history := historyFor s jobId
  if history.length < 2 then (s, none)
  else runGroupsF failG jobId (flightGroups history) s

/-! ### Scheduler

`SchedulerService` holds a mutable `isRunning` flag.  `runPriceChecks` returns
immediately when the flag is set; otherwise it sets the flag, fetches the
active jobs, checks them sequentially, and clears the flag in a `finally`
block.  A sweep is embedded as an atomic state transformation together with
an observable event trace.  The external search collaborator
(`amadeusService.searchFlights` composed with `normalizeAmadeusResponse`) is
the per-job failure point and is abstracted as `env : jobId → Except error
flights`; a failed job is caught by the per-job `catch` and the loop
continues. -/

/-- Scheduler state: the re-entrancy flag and the shared store. -/
structure SchedulerState where
  isRunning : Bool
  store : Store
deriving DecidableEq

/-- Observable events of one sweep. -/
inductive SweepEvent where
  | fetchJobs
  | checkJob (jobId : String) (ok : Bool)
  | delay (ms : Nat)
deriving DecidableEq

/-- One iteration of the per-job loop body (steps a–f of the sweep): search,
record the snapshot, run drop detection, touch `lastCheckedAt`. -/
def checkOneJob (env : String → Except String (List Flight)) (now : Nat)
    (bookingDate : String) (s : Store) (job : MonitoringJob) : Except String Store :=
  match env job.id with
  | .error e => .error e
  | .ok flights =>
    let s1 := (recordPriceSnapshot s job.id flights now bookingDate).1
    let s2 := checkForPriceDrops s1 job.id
    let s3 := updateJobLastChecked s2 job.id now
    .ok s3

/-- The `for (const job of activeJobs)` loop of `runPriceChecks`: on success a
2000 ms delay follows (`await this.delay(2000)` inside the `try` block); the
`catch` path continues with no delay. -/
def runLoop (env : String → Except String (List Flight)) (now : Nat)
    (bookingDate : String) : List MonitoringJob → Store → Store × List SweepEvent
  | [], s => (s, [])
  | job :: rest, s =>
    match checkOneJob env now bookingDate s job with
    | .ok s1 =>
      let r := runLoop env now bookingDate rest s1
      (r.1, SweepEvent.checkJob job.id true :: SweepEvent.delay 2000 :: r.2)
    | .error _ =>
      let r := runLoop env now bookingDate rest s
      (r.1, SweepEvent.checkJob job.id false :: r.2)

/-- Embeds `SchedulerService.runPriceChecks()`.  When `isRunning` is set the
call logs and returns at once (no job fetch, no store change, empty trace);
otherwise the sweep runs and the `finally` block leaves `isRunning` cleared
whatever happened. -/
def runPriceChecks (env : String → Except String (List Flight)) (now : Nat)
    (bookingDate : String) (st : SchedulerState) : SchedulerState × List SweepEvent :=
  if st.isRunning then (st, [])
  else
    let active := getActiveJobs st.store
    let r := runLoop env now bookingDate active st.store
    (⟨false, r.1⟩, SweepEvent.fetchJobs :: r.2)

/-- Embeds `SchedulerService.triggerManualCheck()`: it logs and awaits
`runPriceChecks`. -/
def triggerManualCheck (env : String → Except String (List Flight)) (now : Nat)
    (bookingDate : String) (st : SchedulerState) : SchedulerState × List SweepEvent :=
  runPriceChecks env now bookingDate st

/-- Job ids of the `checkJob` events of a trace, in order. -/
def checkedIds (evs : List SweepEvent) : List String :=
  evs.filterMap (fun e => match e with
    | .checkJob jid _ => some jid
    | _ => none)

/-- Number of throttle-delay events in a trace. -/
def delayCount (evs : List SweepEvent) : Nat :=
  evs.countP (fun e => match e with
    | .delay _ => true
    | _ => false)

/-- Number of successful job-check events in a trace. -/
def successCount (evs : List SweepEvent) : Nat :=
  evs.countP (fun e => match e with
    | .checkJob _ ok => ok
    | _ => false)

/-! ### Concrete data used by witnesses and counterexamples -/

/-- Sample history row for job `"J"`. -/
def sampleEntry (fid : String) (p : ℚ) (t : Nat) : PriceHistoryEntry :=
  { monitoringJobId := "J", flightId := fid, airline := "Air France",
    airlineCode := "AF", flightNumber := "83", departureTime := "2026-03-01T10:00",
    arrivalTime := "2026-03-01T18:00", duration := "PT8H", stops := 0, price := p,
    currency := "USD", bookingDate := "2026-02-16", travelDate := "2026-03-01",
    recordedAt := t }

/-- Sample flight offer. -/
def sampleFlight (fid : String) (p : ℚ) : Flight :=
  { id := fid, airline := "Air France", airlineCode := "AF", flightNumber := "83",
    departure := ⟨"SFO", "2026-03-01T10:00"⟩, arrival := ⟨"CDG", "2026-03-01T18:00"⟩,
    duration := "PT8H", stops := 0, price := ⟨p, "USD"⟩ }

/-- Store whose only history is a 100 → 90 observation pair for one flight:
exactly a 10 percent drop. -/
def storeDrop10 : Store := ⟨[], [sampleEntry "F1" 100 0, sampleEntry "F1" 90 1], []⟩

/-- Store whose only history is a 100 → 90.01 observation pair: a drop just
under 10 percent. -/
def storeDrop999 : Store :=
  ⟨[], [sampleEntry "F1" 100 0, sampleEntry "F1" (9001 / 100) 1], []⟩

/-- Active monitoring job, never checked. -/
def jobA : MonitoringJob :=
  { id := "A", origin := "SFO", destination := "CDG", departureDate := "2026-03-01",
    returnDate := none, adults := 1, travelClass := "ECONOMY", airlines := none,
    isActive := true, checkIntervalHours := 6, lastCheckedAt := none }

/-- Active job last checked one hour before the sweep at time 3600. -/
def jobB : MonitoringJob := { jobA with id := "B", lastCheckedAt := some 0 }

/-- Active job last checked one minute before the sweep at time 3600. -/
def jobC : MonitoringJob := { jobA with id := "C", lastCheckedAt := some 3540 }

/-- Store holding the three jobs of the fairness scenario. -/
def storeABC : Store := ⟨[jobA, jobB, jobC], [], []⟩

/-- Store holding only the two timestamped jobs. -/
def storeBC : Store := ⟨[jobB, jobC], [], []⟩

/-- Search collaborator that always succeeds with an empty offer list. -/
def envOk : String → Except String (List Flight) := fun _ => .ok []

/-- Search collaborator that fails for job `"B"` and succeeds otherwise. -/
def envFailB : String → Except String (List Flight) :=
  fun jid => if jid = "B" then .error "searchFlights failed" else .ok []

/-- Store with one job `"X"` plus a history row and an alert referencing it. -/
def storeX : Store :=
  ⟨[{ jobA with id := "X" }],
   [{ sampleEntry "F1" 100 0 with monitoringJobId := "X" }],
   [{ monitoringJobId := "X", alertType := "PRICE_DROP", oldPrice := 100,
      newPrice := 90, percentageChange := -10,
      flightDetails := ⟨"Air France", "83", "2026-03-01T10:00", "2026-03-01T18:00", "PT8H", 0⟩,
      isRead := false }]⟩

/-- History with two flight-id groups, `"G1"` first; both drop by at least
10 percent. -/
def storeTwoGroups : Store :=
  ⟨[], [sampleEntry "G1" 100 0, { sampleEntry "G2" 200 1 with flightId := "G2" },
        sampleEntry "G1" 80 2, { sampleEntry "G2" 100 3 with flightId := "G2" }], []⟩

/-- Fault oracle rejecting the store operation of group `"G1"`. -/
def failG1 : String → Bool := fun fid => fid == "G1"

/-- The always-succeeding per-group fault oracle. -/
def failNone : String → Bool := fun _ => false

/-- A flight offer priced at zero. -/
def zeroFlight : Flight := sampleFlight "F0" 0

/-- Store produced from an empty store by two snapshot calls that each record
the zero-priced flight. -/
def storeZero : Store :=
  (recordPriceSnapshot (recordPriceSnapshot ⟨[], [], []⟩ "J" [zeroFlight] 0 "2026-02-16").1
    "J" [zeroFlight] 1 "2026-02-17").1

/-- Four flight offers with a price tie, in booking-site order. -/
def fourFlights : List Flight :=
  [sampleFlight "D1" 500, sampleFlight "D2" 420, sampleFlight "D3" 420,
   sampleFlight "D4" 455]

/-! ### Helper lemmas

The Batteries rational operations are `@[irreducible]`; they are made
semireducible here so that concrete witnesses can be settled by `decide`. -/

attribute [local semireducible] Rat.add Rat.sub Rat.mul Rat.inv

theorem filter_keyEq_orderedInsert {α β : Type} [LinearOrder β] (k : α → β)
    (x : α) (l : List α) (p : β) :
    (List.orderedInsert (keyLE k) x l).filter (fun y => decide (k y = p)) =
      if k x = p then x :: l.filter (fun y => decide (k y = p))
      else l.filter (fun y => decide (k y = p)) := by
  induction l with
  | nil =>
    by_cases h : k x = p <;> simp [List.orderedInsert, h]
  | cons y ys ih =>
    by_cases hr : keyLE k x y
    · rw [List.orderedInsert, if_pos hr]
      by_cases h : k x = p <;> simp [List.filter_cons, h]
    · rw [List.orderedInsert, if_neg hr]
      have hlt : k y < k x := lt_of_not_le hr
      by_cases h : k x = p
      · have hyp : ¬(k y = p) := by
          rw [← h]
          exact ne_of_lt hlt
        simp [List.filter_cons, hyp, ih, h]
      · simp [List.filter_cons, ih, h]

/-- Stability of the embedded sort: for each key value, the sorted list keeps
the original relative order of the elements carrying that key. -/
theorem filter_keyEq_sortByKey {α β : Type} [LinearOrder β] (k : α → β)
    (l : List α) (p : β) :
    (sortByKey k l).filter (fun y => decide (k y = p)) =
      l.filter (fun y => decide (k y = p)) := by
  induction l with
  | nil => rfl
  | cons a l ih =>
    have hstep : sortByKey k (a :: l) = List.orderedInsert (keyLE k) a (sortByKey k l) := rfl
    rw [hstep, filter_keyEq_orderedInsert, List.filter_cons]
    by_cases h : k a = p <;> simp [h, ih]

/-- The sweep trace does not depend on the store contents and records, per
job in order: a successful check followed by the throttle delay, or a failed
check with no delay. -/
theorem runLoop_trace (env : String → Except String (List Flight)) (now : Nat)
    (bd : String) : ∀ (jobs : List MonitoringJob) (s : Store),
    (runLoop env now bd jobs s).2 = jobs.flatMap (fun job =>
      match env job.id with
      | .ok _ => [SweepEvent.checkJob job.id true, SweepEvent.delay 2000]
      | .error _ => [SweepEvent.checkJob job.id false]) := by
  intro jobs
  induction jobs with
  | nil => intro s; rfl
  | cons job rest ih =>
    intro s
    cases henv : env job.id with
    | ok flights => simp [runLoop, checkOneJob, henv, ih]
    | error e => simp [runLoop, checkOneJob, henv, ih]

/-- The `checkJob` events of a sweep trace list the swept jobs in order. -/
theorem checkedIds_flatMapTrace (env : String → Except String (List Flight))
    (jobs : List MonitoringJob) :
    checkedIds (jobs.flatMap (fun job =>
      match env job.id with
      | .ok _ => [SweepEvent.checkJob job.id true, SweepEvent.delay 2000]
      | .error _ => [SweepEvent.checkJob job.id false])) =
      jobs.map (fun j => j.id) := by
  induction jobs with
  | nil => rfl
  | cons job rest ih =>
    cases henv : env job.id <;> simp [checkedIds, henv] <;>
      simpa [checkedIds] using ih

/-! ### C1: sweep mutual exclusion -/

/-- C1: while a sweep is in progress (`isRunning` set), any further
`runPriceChecks` call — from a timer tick or from `triggerManualCheck` —
returns the scheduler state unchanged with an empty trace: no job fetch and
no store mutation; and a sweep that does start, under any mix of per-job
successes and failures, finishes with `isRunning` cleared. -/
theorem sweep_mutual_exclusion
    (env : String → Except String (List Flight)) (now : Nat) (bd : String)
    (st₁ st₂ : SchedulerState) (h₁ : st₁.isRunning = true)
    (h₂ : st₂.isRunning = false) :
    runPriceChecks env now bd st₁ = (st₁, []) ∧
    triggerManualCheck env now bd st₁ = (st₁, []) ∧
    (runPriceChecks env now bd st₂).1.isRunning = false ∧
    (triggerManualCheck env now bd st₂).1.isRunning = false := by
  refine ⟨?_, ?_, ?_, ?_⟩ <;> simp [runPriceChecks, triggerManualCheck, h₁, h₂]

/-- Witness for C1 at a concrete busy state and a concrete idle state. -/
theorem sweep_mutual_exclusion_witness :
    (SchedulerState.mk true storeABC).isRunning = true ∧
    (SchedulerState.mk false storeABC).isRunning = false ∧
    (runPriceChecks envOk 3600 "2026-02-16" ⟨true, storeABC⟩ = (⟨true, storeABC⟩, []) ∧
     triggerManualCheck envOk 3600 "2026-02-16" ⟨true, storeABC⟩ = (⟨true, storeABC⟩, []) ∧
     (runPriceChecks envOk 3600 "2026-02-16" ⟨false, storeABC⟩).1.isRunning = false ∧
     (triggerManualCheck envOk 3600 "2026-02-16" ⟨false, storeABC⟩).1.isRunning = false) :=
  ⟨rfl, rfl,
   sweep_mutual_exclusion envOk 3600 "2026-02-16" ⟨true, storeABC⟩ ⟨false, storeABC⟩ rfl rfl⟩

/-! ### C5: fairness ordering -/

/-- C5 counterexample: with active jobs A (never checked), B (checked an hour
before the sweep) and C (checked a minute before), `getActiveJobs` returns
B, C, A — PostgreSQL `ORDER BY ... ASC` places null `lastCheckedAt` LAST —
and the sweep processes them in that order, not A, B, C as the claim states. -/
theorem fairness_nulls_first_counterexample :
    (getActiveJobs storeABC).map (fun j => j.id) = ["B", "C", "A"] ∧
    ¬ (getActiveJobs storeABC).map (fun j => j.id) = ["A", "B", "C"] ∧
    checkedIds (runPriceChecks envOk 3600 "2026-02-16" ⟨false, storeABC⟩).2 = ["B", "C", "A"] ∧
    ¬ checkedIds (runPriceChecks envOk 3600 "2026-02-16" ⟨false, storeABC⟩).2 = ["A", "B", "C"] := by
  decide

/-- C5 amended: `getActiveJobs` returns exactly the jobs with `isActive =
true`, ordered by `lastCheckedAt` ascending with never-checked jobs LAST
(PostgreSQL null ordering under `ASC`), and the sweep processes jobs in the
returned order; in the A/B/C scenario the processing order is B, C, A. -/
theorem fairness_ordering_nulls_last
    (env : String → Except String (List Flight)) (now : Nat) (bd : String)
    (st : SchedulerState) (h : st.isRunning = false) :
    (getActiveJobs st.store).Perm (st.store.jobs.filter (fun j => j.isActive)) ∧
    List.Sorted jobLE (getActiveJobs st.store) ∧
    checkedIds (runPriceChecks env now bd st).2 =
      (getActiveJobs st.store).map (fun j => j.id) := by
  refine ⟨List.perm_insertionSort _ _, List.sorted_insertionSort _ _, ?_⟩
  simp only [runPriceChecks, h, Bool.false_eq_true, if_false, runLoop_trace]
  simpa [checkedIds] using checkedIds_flatMapTrace env (getActiveJobs st.store)

/-- Witness for C5 (amended) at the concrete A/B/C store. -/
theorem fairness_ordering_nulls_last_witness :
    (SchedulerState.mk false storeABC).isRunning = false ∧
    ((getActiveJobs (SchedulerState.mk false storeABC).store).Perm
       ((SchedulerState.mk false storeABC).store.jobs.filter (fun j => j.isActive)) ∧
     List.Sorted jobLE (getActiveJobs (SchedulerState.mk false storeABC).store) ∧
     checkedIds (runPriceChecks envOk 3600 "2026-02-16" ⟨false, storeABC⟩).2 =
       (getActiveJobs (SchedulerState.mk false storeABC).store).map (fun j => j.id)) :=
  ⟨rfl, fairness_ordering_nulls_last envOk 3600 "2026-02-16" ⟨false, storeABC⟩ rfl⟩

/-! ### C7: sweep throttling -/

/-- C7 counterexample: in a sweep over jobs B (whose search fails) then C
(which succeeds), no delay follows the failed first job — the event after
B's check is C's check — while a delay does follow the final job C, so the
sweep trace ends with a throttle delay. -/
theorem throttle_after_final_job_counterexample :
    (runPriceChecks envFailB 3600 "2026-02-16" ⟨false, storeBC⟩).2 =
      [SweepEvent.fetchJobs, SweepEvent.checkJob "B" false,
       SweepEvent.checkJob "C" true, SweepEvent.delay 2000] ∧
    (runPriceChecks envFailB 3600 "2026-02-16" ⟨false, storeBC⟩).2.getLast? =
      some (SweepEvent.delay 2000) ∧
    ¬ (runPriceChecks envFailB 3600 "2026-02-16" ⟨false, storeBC⟩).2.get? 2 =
      some (SweepEvent.delay 2000) := by
  decide

/-- C7 amended: the fixed 2-second throttle delay occurs after each
successfully checked job — including the final one — and no delay occurs
after a job whose check failed. -/
theorem throttle_after_successful_jobs
    (env : String → Except String (List Flight)) (now : Nat) (bd : String)
    (st : SchedulerState) (h : st.isRunning = false) :
    (runPriceChecks env now bd st).2 =
      SweepEvent.fetchJobs :: (getActiveJobs st.store).flatMap (fun job =>
        match env job.id with
        | .ok _ => [SweepEvent.checkJob job.id true, SweepEvent.delay 2000]
        | .error _ => [SweepEvent.checkJob job.id false]) := by
  simp [runPriceChecks, h, runLoop_trace]

/-- Witness for C7 (amended) at the concrete two-job sweep. -/
theorem throttle_after_successful_jobs_witness :
    (SchedulerState.mk false storeBC).isRunning = false ∧
    (runPriceChecks envFailB 3600 "2026-02-16" ⟨false, storeBC⟩).2 =
      SweepEvent.fetchJobs ::
        (getActiveJobs (SchedulerState.mk false storeBC).store).flatMap (fun job =>
          match envFailB job.id with
          | .ok _ => [SweepEvent.checkJob job.id true, SweepEvent.delay 2000]
          | .error _ => [SweepEvent.checkJob job.id false]) :=
  ⟨rfl, throttle_after_successful_jobs envFailB 3600 "2026-02-16" ⟨false, storeBC⟩ rfl⟩

/-! ### C2: cheapest-3 retention -/

/-- C2: for a snapshot with more than 3 flights, exactly the first 3 entries
of the stable price-ascending sort are appended to the history; they are 3
rows, their stored prices are monotonically non-decreasing, they are 3
lowest-priced flights of the input (every non-selected flight costs at least
as much as every selected one), and the sort is stable, so ties are broken by
the flights' original order. -/
theorem cheapest3_retention (s : Store) (jobId : String) (flights : List Flight)
    (now : Nat) (bd : String) (h : 3 < flights.length) :
    (recordPriceSnapshot s jobId flights now bd).1.history
        = s.history ++ ((sortFlightsByPrice flights).take 3).map (entryOfFlight jobId now bd) ∧
    ((sortFlightsByPrice flights).take 3).length = 3 ∧
    List.Chain' (· ≤ ·)
      ((((sortFlightsByPrice flights).take 3).map (entryOfFlight jobId now bd)).map
        (fun e => e.price)) ∧
    (∃ others, flights.Perm ((sortFlightsByPrice flights).take 3 ++ others) ∧
      ∀ a ∈ (sortFlightsByPrice flights).take 3, ∀ b ∈ others,
        a.price.amount ≤ b.price.amount) ∧
    (∀ p : ℚ, (sortFlightsByPrice flights).filter (fun f => decide (f.price.amount = p))
        = flights.filter (fun f => decide (f.price.amount = p))) := by
  have hne : flights ≠ [] := by
    intro hnil
    rw [hnil] at h
    simp at h
  have hsorted : List.Sorted (keyLE (fun f : Flight => f.price.amount))
      (sortFlightsByPrice flights) := List.sorted_insertionSort _ _
  have hperm : (sortFlightsByPrice flights).Perm flights := List.perm_insertionSort _ _
  refine ⟨?_, ?_, ?_, ?_, ?_⟩
  · simp [recordPriceSnapshot, hne]
  · rw [List.length_take, hperm.length_eq]
    omega
  · have h1 : List.Pairwise (keyLE (fun f : Flight => f.price.amount))
        ((sortFlightsByPrice flights).take 3) :=
      hsorted.sublist (List.take_sublist _ _)
    have h2 : ((((sortFlightsByPrice flights).take 3).map (entryOfFlight jobId now bd)).map
        (fun e => e.price)) = ((sortFlightsByPrice flights).take 3).map
          (fun f => f.price.amount) := by
      rw [List.map_map]
      apply List.map_congr_left
      intro f _
      rfl
    rw [h2]
    have h3 : List.Pairwise (· ≤ ·)
        (((sortFlightsByPrice flights).take 3).map (fun f => f.price.amount)) := by
      rw [List.pairwise_map]
      exact h1
    exact h3.chain'
  · refine ⟨(sortFlightsByPrice flights).drop 3, ?_, ?_⟩
    · have h4 : (sortFlightsByPrice flights).take 3 ++ (sortFlightsByPrice flights).drop 3
          = sortFlightsByPrice flights := List.take_append_drop _ _
      rw [h4]
      exact hperm.symm
    · have h5 : List.Pairwise (keyLE (fun f : Flight => f.price.amount))
          ((sortFlightsByPrice flights).take 3 ++ (sortFlightsByPrice flights).drop 3) := by
        rw [List.take_append_drop]
        exact hsorted
      exact fun a ha b hb => (List.pairwise_append.mp h5).2.2 a ha b hb
  · intro p
    exact filter_keyEq_sortByKey (fun f : Flight => f.price.amount) flights p

/-- Witness for C2 at a concrete four-flight snapshot with a price tie. -/
theorem cheapest3_retention_witness :
    3 < fourFlights.length ∧
    (recordPriceSnapshot storeABC "J" fourFlights 7 "2026-02-16").1.history
        = storeABC.history ++
          ((sortFlightsByPrice fourFlights).take 3).map (entryOfFlight "J" 7 "2026-02-16") ∧
    ((sortFlightsByPrice fourFlights).take 3).length = 3 ∧
    List.Chain' (· ≤ ·)
      ((((sortFlightsByPrice fourFlights).take 3).map (entryOfFlight "J" 7 "2026-02-16")).map
        (fun e => e.price)) ∧
    (∃ others, fourFlights.Perm ((sortFlightsByPrice fourFlights).take 3 ++ others) ∧
      ∀ a ∈ (sortFlightsByPrice fourFlights).take 3, ∀ b ∈ others,
        a.price.amount ≤ b.price.amount) ∧
    (sortFlightsByPrice fourFlights).filter (fun f => decide (f.price.amount = 420))
        = fourFlights.filter (fun f => decide (f.price.amount = 420)) := by
  have hmain := cheapest3_retention storeABC "J" fourFlights 7 "2026-02-16" (by decide)
  exact ⟨by decide, hmain.1, hmain.2.1, hmain.2.2.1, hmain.2.2.2.1, hmain.2.2.2.2 420⟩

/-! ### C10: snapshot recording mutates its input -/

/-- C10: for every non-empty flight list, the caller's array observable after
`recordPriceSnapshot` is the in-place stable sort of the input by ascending
price: a permutation of the input (same elements, same length) in
price-sorted order. -/
theorem record_snapshot_mutates_input (s : Store) (jobId : String)
    (flights : List Flight) (now : Nat) (bd : String) (h : ¬ flights = []) :
    (recordPriceSnapshot s jobId flights now bd).2 = sortFlightsByPrice flights ∧
    ((recordPriceSnapshot s jobId flights now bd).2).Perm flights ∧
    (recordPriceSnapshot s jobId flights now bd).2.length = flights.length ∧
    List.Sorted (keyLE (fun f : Flight => f.price.amount))
      (recordPriceSnapshot s jobId flights now bd).2 := by
  have h2 : (recordPriceSnapshot s jobId flights now bd).2 = sortFlightsByPrice flights := by
    simp [recordPriceSnapshot, h]
  refine ⟨h2, ?_, ?_, ?_⟩
  · rw [h2]
    exact List.perm_insertionSort _ _
  · rw [h2]
    exact (List.perm_insertionSort _ _).length_eq
  · rw [h2]
    exact List.sorted_insertionSort _ _

/-- Witness for C10 at the concrete four-flight list. -/
theorem record_snapshot_mutates_input_witness :
    ¬ fourFlights = [] ∧
    ((recordPriceSnapshot storeABC "J" fourFlights 8 "2026-02-17").2
        = sortFlightsByPrice fourFlights ∧
     ((recordPriceSnapshot storeABC "J" fourFlights 8 "2026-02-17").2).Perm fourFlights ∧
     (recordPriceSnapshot storeABC "J" fourFlights 8 "2026-02-17").2.length
        = fourFlights.length ∧
     List.Sorted (keyLE (fun f : Flight => f.price.amount))
       (recordPriceSnapshot storeABC "J" fourFlights 8 "2026-02-17").2) :=
  ⟨by decide, record_snapshot_mutates_input storeABC "J" fourFlights 8 "2026-02-17" (by decide)⟩

/-! ### C4: alert idempotence -/

/-- The body of `checkForPriceDrops` as a plain conditional. -/
theorem checkForPriceDrops_eq (s : Store) (jobId : String) :
    checkForPriceDrops s jobId =
      if (historyFor s jobId).length < 2 then s
      else List.foldl (fun acc g => processGroup jobId acc g.2) s
        (flightGroups (historyFor s jobId)) := rfl

theorem processGroup_preserves (jobId : String) (s : Store)
    (recs : List PriceHistoryEntry) :
    (processGroup jobId s recs).history = s.history ∧
    (processGroup jobId s recs).jobs = s.jobs := by
  unfold processGroup
  rcases recs with _ | ⟨r0, _ | ⟨r1, rs⟩⟩
  · exact ⟨rfl, rfl⟩
  · exact ⟨rfl, rfl⟩
  · dsimp only
    split_ifs <;> exact ⟨rfl, rfl⟩

theorem processGroup_alerts_append (jobId : String) (s : Store)
    (recs : List PriceHistoryEntry) :
    ∃ t, (processGroup jobId s recs).alerts = s.alerts ++ t := by
  unfold processGroup
  rcases recs with _ | ⟨r0, _ | ⟨r1, rs⟩⟩
  · exact ⟨[], by simp⟩
  · exact ⟨[], by simp⟩
  · dsimp only
    split_ifs
    · exact ⟨[], by simp⟩
    · exact ⟨[priceDropAlert jobId r0.price (List.getLastD (r1 :: rs) r0).price
        ((r0.price - (List.getLastD (r1 :: rs) r0).price) / r0.price * 100)
        (List.getLastD (r1 :: rs) r0)], rfl⟩
    · exact ⟨[], by simp⟩

theorem existingAlert_processGroup (jobId jobId' : String) (s : Store)
    (recs : List PriceHistoryEntry) (o n : ℚ)
    (h : existingAlert s jobId' o n = true) :
    existingAlert (processGroup jobId s recs) jobId' o n = true := by
  obtain ⟨t, ht⟩ := processGroup_alerts_append jobId s recs
  unfold existingAlert at *
  simp [ht, List.any_append, h]

theorem foldl_processGroup_preserves (jobId : String) :
    ∀ (groups : List (String × List PriceHistoryEntry)) (s : Store),
    (List.foldl (fun acc g => processGroup jobId acc g.2) s groups).history = s.history ∧
    (List.foldl (fun acc g => processGroup jobId acc g.2) s groups).jobs = s.jobs := by
  intro groups
  induction groups with
  | nil => intro s; exact ⟨rfl, rfl⟩
  | cons g gs ih =>
    intro s
    simp only [List.foldl_cons]
    have h1 := processGroup_preserves jobId s g.2
    have h2 := ih (processGroup jobId s g.2)
    exact ⟨h2.1.trans h1.1, h2.2.trans h1.2⟩

theorem existingAlert_foldl (jobId jobId' : String) (o n : ℚ) :
    ∀ (groups : List (String × List PriceHistoryEntry)) (s : Store),
    existingAlert s jobId' o n = true →
    existingAlert (List.foldl (fun acc g => processGroup jobId acc g.2) s groups)
      jobId' o n = true := by
  intro groups
  induction groups with
  | nil => intro s h; exact h
  | cons g gs ih =>
    intro s h
    simp only [List.foldl_cons]
    exact ih _ (existingAlert_processGroup jobId jobId' s g.2 o n h)

/-- After one pass of the per-group loop, every group that qualifies for an
alert has a matching alert triple in the store. -/
theorem foldl_ensures_alert (jobId : String) :
    ∀ (groups : List (String × List PriceHistoryEntry)) (s : Store)
      (fid : String) (r0 r1 : PriceHistoryEntry) (rs : List PriceHistoryEntry),
    (fid, r0 :: r1 :: rs) ∈ groups →
    10 ≤ (r0.price - (List.getLastD (r1 :: rs) r0).price) / r0.price * 100 →
    existingAlert (List.foldl (fun acc g => processGroup jobId acc g.2) s groups)
      jobId r0.price (List.getLastD (r1 :: rs) r0).price = true := by
  intro groups
  induction groups with
  | nil =>
    intro s fid r0 r1 rs hmem
    cases hmem
  | cons g gs ih =>
    intro s fid r0 r1 rs hmem hq
    rcases List.mem_cons.mp hmem with heq | hmem'
    · subst heq
      simp only [List.foldl_cons]
      apply existingAlert_foldl
      unfold processGroup
      dsimp only
      rw [if_pos hq]
      by_cases hex : existingAlert s jobId r0.price (List.getLastD (r1 :: rs) r0).price = true
      · rw [if_pos hex]
        exact hex
      · simp only [Bool.not_eq_true] at hex
        rw [if_neg (by rw [hex]; exact Bool.false_ne_true)]
        unfold existingAlert
        simp [List.any_append, matchesTriple, priceDropAlert]
    · simp only [List.foldl_cons]
      exact ih _ fid r0 r1 rs hmem' hq

/-- The per-group loop is a no-op when every qualifying group's alert triple
is already present. -/
theorem foldl_noop (jobId : String) :
    ∀ (groups : List (String × List PriceHistoryEntry)) (s : Store),
    (∀ fid r0 r1 rs, (fid, r0 :: r1 :: rs) ∈ groups →
        10 ≤ (r0.price - (List.getLastD (r1 :: rs) r0).price) / r0.price * 100 →
        existingAlert s jobId r0.price (List.getLastD (r1 :: rs) r0).price = true) →
    List.foldl (fun acc g => processGroup jobId acc g.2) s groups = s := by
  intro groups
  induction groups with
  | nil =>
    intro s _
    rfl
  | cons g gs ih =>
    intro s hall
    simp only [List.foldl_cons]
    have hg : processGroup jobId s g.2 = s := by
      rcases g with ⟨fid, recs⟩
      rcases recs with _ | ⟨r0, _ | ⟨r1, rs⟩⟩
      · rfl
      · rfl
      · unfold processGroup
        dsimp only
        by_cases hq : 10 ≤ (r0.price - (List.getLastD (r1 :: rs) r0).price) / r0.price * 100
        · rw [if_pos hq, if_pos (hall fid r0 r1 rs (List.mem_cons_self _ _) hq)]
        · rw [if_neg hq]
    rw [hg]
    apply ih
    intro fid r0 r1 rs hmem hq
    exact hall fid r0 r1 rs (List.mem_cons_of_mem _ hmem) hq

theorem checkForPriceDrops_preserves (s : Store) (jobId : String) :
    (checkForPriceDrops s jobId).history = s.history ∧
    (checkForPriceDrops s jobId).jobs = s.jobs := by
  rw [checkForPriceDrops_eq]
  by_cases hlen : (historyFor s jobId).length < 2
  · rw [if_pos hlen]
    exact ⟨rfl, rfl⟩
  · rw [if_neg hlen]
    exact foldl_processGroup_preserves jobId _ s

theorem existingAlert_eq_false_iff (s : Store) (j : String) (o n : ℚ) :
    existingAlert s j o n = false ↔ countTriple s j o n = 0 := by
  unfold existingAlert countTriple
  simp [List.any_eq_false, List.countP_eq_zero]

theorem countTriple_processGroup (jobId j' : String) (o n : ℚ) (s : Store)
    (recs : List PriceHistoryEntry) (h : countTriple s j' o n ≤ 1) :
    countTriple (processGroup jobId s recs) j' o n ≤ 1 := by
  unfold processGroup
  rcases recs with _ | ⟨r0, _ | ⟨r1, rs⟩⟩
  · exact h
  · exact h
  · dsimp only
    split_ifs with h1 h2
    · exact h
    · simp only [Bool.not_eq_true] at h2
      unfold countTriple
      show List.countP (matchesTriple j' o n) (s.alerts ++
        [priceDropAlert jobId r0.price (List.getLastD (r1 :: rs) r0).price
          ((r0.price - (List.getLastD (r1 :: rs) r0).price) / r0.price * 100)
          (List.getLastD (r1 :: rs) r0)]) ≤ 1
      rw [List.countP_append]
      have hsingle : List.countP (matchesTriple j' o n)
          [priceDropAlert jobId r0.price (List.getLastD (r1 :: rs) r0).price
            ((r0.price - (List.getLastD (r1 :: rs) r0).price) / r0.price * 100)
            (List.getLastD (r1 :: rs) r0)] ≤ 1 :=
        le_trans (List.countP_le_length _) (by simp)
      by_cases hm : matchesTriple j' o n
          (priceDropAlert jobId r0.price (List.getLastD (r1 :: rs) r0).price
            ((r0.price - (List.getLastD (r1 :: rs) r0).price) / r0.price * 100)
            (List.getLastD (r1 :: rs) r0)) = true
      · unfold matchesTriple at hm
        obtain ⟨hj, ho, hn⟩ := of_decide_eq_true hm
        simp only [priceDropAlert] at hj ho hn
        have h0 : List.countP (matchesTriple j' o n) s.alerts = 0 := by
          have h2' := (existingAlert_eq_false_iff s jobId r0.price
            (List.getLastD (r1 :: rs) r0).price).mp h2
          unfold countTriple at h2'
          rw [← hj, ← ho, ← hn]
          exact h2'
        omega
      · have h1' : List.countP (matchesTriple j' o n)
            [priceDropAlert jobId r0.price (List.getLastD (r1 :: rs) r0).price
              ((r0.price - (List.getLastD (r1 :: rs) r0).price) / r0.price * 100)
              (List.getLastD (r1 :: rs) r0)] = 0 := by
          simp only [List.countP_cons, List.countP_nil]
          rw [if_neg hm]
        unfold countTriple at h
        omega
    · exact h

theorem countTriple_foldl (jobId j' : String) (o n : ℚ) :
    ∀ (groups : List (String × List PriceHistoryEntry)) (s : Store),
    countTriple s j' o n ≤ 1 →
    countTriple (List.foldl (fun acc g => processGroup jobId acc g.2) s groups)
      j' o n ≤ 1 := by
  intro groups
  induction groups with
  | nil => intro s h; exact h
  | cons g gs ih =>
    intro s h
    simp only [List.foldl_cons]
    exact ih _ (countTriple_processGroup jobId j' o n s g.2 h)

/-- C4: with the price history unchanged between the calls, a second
`checkForPriceDrops` run is a no-op — the store after two consecutive calls
equals the store after one — and any `(jobId, firstPrice, latestPrice)`
triple absent before the first call is present at most once afterwards. -/
theorem alert_idempotence (s : Store) (jobId j' : String) (o n : ℚ)
    (h : countTriple s j' o n = 0) :
    checkForPriceDrops (checkForPriceDrops s jobId) jobId = checkForPriceDrops s jobId ∧
    countTriple (checkForPriceDrops s jobId) j' o n ≤ 1 := by
  have hpres := checkForPriceDrops_preserves s jobId
  have hist_eq : historyFor (checkForPriceDrops s jobId) jobId = historyFor s jobId := by
    unfold historyFor
    rw [hpres.1]
  constructor
  · rw [checkForPriceDrops_eq (checkForPriceDrops s jobId) jobId, hist_eq]
    by_cases hlen : (historyFor s jobId).length < 2
    · rw [if_pos hlen]
    · rw [if_neg hlen]
      have hs1 : checkForPriceDrops s jobId =
          List.foldl (fun acc g => processGroup jobId acc g.2) s
            (flightGroups (historyFor s jobId)) := by
        rw [checkForPriceDrops_eq, if_neg hlen]
      apply foldl_noop
      intro fid r0 r1 rs hmem hq
      rw [hs1]
      exact foldl_ensures_alert jobId _ s fid r0 r1 rs hmem hq
  · rw [checkForPriceDrops_eq]
    by_cases hlen : (historyFor s jobId).length < 2
    · rw [if_pos hlen]
      omega
    · rw [if_neg hlen]
      exact countTriple_foldl jobId j' o n _ s (by omega)

/-- Witness for C4 at the concrete 10-percent-drop history. -/
theorem alert_idempotence_witness :
    countTriple storeDrop10 "J" 100 90 = 0 ∧
    (checkForPriceDrops (checkForPriceDrops storeDrop10 "J") "J"
        = checkForPriceDrops storeDrop10 "J" ∧
     countTriple (checkForPriceDrops storeDrop10 "J") "J" 100 90 ≤ 1) :=
  ⟨by decide, alert_idempotence storeDrop10 "J" "J" 100 90 (by decide)⟩

/-! ### C3: drop threshold boundary -/

/-- A member of `flightGroups h` carries exactly the rows of `h` with its
flight id, in history order. -/
theorem flightGroups_mem_eq (h : List PriceHistoryEntry) (fid : String)
    (recs : List PriceHistoryEntry) (hmem : (fid, recs) ∈ flightGroups h) :
    recs = h.filter (fun r => decide (r.flightId = fid)) := by
  unfold flightGroups at hmem
  rw [List.mem_map] at hmem
  obtain ⟨fid', _, heq⟩ := hmem
  rw [Prod.mk.injEq] at heq
  obtain ⟨rfl, h2⟩ := heq
  exact h2.symm

/-- A history owning a group with at least two rows has at least two rows
itself, so the early return of `checkForPriceDrops` does not fire. -/
theorem flightGroups_group_ge_two (s : Store) (jobId fid : String)
    (r0 r1 : PriceHistoryEntry) (rs : List PriceHistoryEntry)
    (hmem : (fid, r0 :: r1 :: rs) ∈ flightGroups (historyFor s jobId)) :
    ¬ (historyFor s jobId).length < 2 := by
  have hrecs := flightGroups_mem_eq _ _ _ hmem
  have hle : (r0 :: r1 :: rs).length ≤ (historyFor s jobId).length := by
    rw [hrecs]
    exact List.length_filter_le _ _
  simp only [List.length_cons] at hle
  omega

/-- The loop body on a group with at least two rows, as the claim's
conditional: alert appended iff the percent change reaches 10 and no alert
with the exact triple exists in the store the group is evaluated against. -/
theorem processGroup_char (jobId : String) (s : Store) (r0 r1 : PriceHistoryEntry)
    (rs : List PriceHistoryEntry) :
    processGroup jobId s (r0 :: r1 :: rs) =
      if 10 ≤ (r0.price - (List.getLastD (r1 :: rs) r0).price) / r0.price * 100
          ∧ existingAlert s jobId r0.price (List.getLastD (r1 :: rs) r0).price = false then
        { s with alerts := s.alerts ++
            [priceDropAlert jobId r0.price (List.getLastD (r1 :: rs) r0).price
              ((r0.price - (List.getLastD (r1 :: rs) r0).price) / r0.price * 100)
              (List.getLastD (r1 :: rs) r0)] }
      else s := by
  unfold processGroup
  dsimp only
  by_cases hpct : 10 ≤ (r0.price - (List.getLastD (r1 :: rs) r0).price) / r0.price * 100
  · rw [if_pos hpct]
    by_cases hex : existingAlert s jobId r0.price (List.getLastD (r1 :: rs) r0).price = true
    · have hc : ¬(10 ≤ (r0.price - (List.getLastD (r1 :: rs) r0).price) / r0.price * 100
          ∧ existingAlert s jobId r0.price (List.getLastD (r1 :: rs) r0).price = false) := by
        rintro ⟨-, hfalse⟩
        rw [hex] at hfalse
        simp at hfalse
      rw [if_pos hex, if_neg hc]
    · simp only [Bool.not_eq_true] at hex
      rw [if_neg (by rw [hex]; exact Bool.false_ne_true), if_pos ⟨hpct, hex⟩]
  · rw [if_neg hpct, if_neg (fun hcond => hpct hcond.1)]

theorem foldl_alerts_append (jobId : String) :
    ∀ (groups : List (String × List PriceHistoryEntry)) (s : Store),
    ∃ t, (List.foldl (fun acc g => processGroup jobId acc g.2) s groups).alerts
        = s.alerts ++ t := by
  intro groups
  induction groups with
  | nil => intro s; exact ⟨[], by simp⟩
  | cons g gs ih =>
    intro s
    obtain ⟨t1, ht1⟩ := processGroup_alerts_append jobId s g.2
    obtain ⟨t2, ht2⟩ := ih (processGroup jobId s g.2)
    refine ⟨t1 ++ t2, ?_⟩
    rw [List.foldl_cons, ht2, ht1, List.append_assoc]

theorem mem_alerts_foldl (jobId : String)
    (groups : List (String × List PriceHistoryEntry)) (s : Store) (a : PriceAlert)
    (ha : a ∈ s.alerts) :
    a ∈ (List.foldl (fun acc g => processGroup jobId acc g.2) s groups).alerts := by
  obtain ⟨t, ht⟩ := foldl_alerts_append jobId groups s
  rw [ht]
  exact List.mem_append_left _ ha

/-- C3: for every store and every job history in which some flightId group
has at least two rows — the groups before (`pre`) and after (`post`) it
arbitrary — `checkForPriceDrops` creates a PRICE_DROP alert for that group,
carrying `oldPrice` = the group's first (earliest) price, `newPrice` = its
latest price and `percentageChange` = the negated percent change, if and
only if `percentChange = (firstPrice - latestPrice) / firstPrice * 100` is
at least 10 and no alert with the exact `(jobId, firstPrice, latestPrice)`
triple exists at the moment the group is evaluated (alerts inserted for
earlier groups of the same call included, matching the live `findFirst`);
otherwise the group leaves the store untouched.  A created alert survives
the remaining groups into the final store.  The boundary instances — first
price 100 with latest 90 creates the alert, latest 90.01 does not — are
checked in the witness. -/
theorem drop_threshold_boundary (s : Store) (jobId fid : String)
    (pre post : List (String × List PriceHistoryEntry))
    (r0 r1 : PriceHistoryEntry) (rs : List PriceHistoryEntry)
    (hsplit : flightGroups (historyFor s jobId)
        = pre ++ (fid, r0 :: r1 :: rs) :: post) :
    checkForPriceDrops s jobId =
      List.foldl (fun acc g => processGroup jobId acc g.2)
        (if 10 ≤ (r0.price - (List.getLastD (r1 :: rs) r0).price) / r0.price * 100
            ∧ existingAlert (List.foldl (fun acc g => processGroup jobId acc g.2) s pre)
                jobId r0.price (List.getLastD (r1 :: rs) r0).price = false then
          { (List.foldl (fun acc g => processGroup jobId acc g.2) s pre) with alerts :=
              (List.foldl (fun acc g => processGroup jobId acc g.2) s pre).alerts ++
              [priceDropAlert jobId r0.price (List.getLastD (r1 :: rs) r0).price
                ((r0.price - (List.getLastD (r1 :: rs) r0).price) / r0.price * 100)
                (List.getLastD (r1 :: rs) r0)] }
         else List.foldl (fun acc g => processGroup jobId acc g.2) s pre) post ∧
    (10 ≤ (r0.price - (List.getLastD (r1 :: rs) r0).price) / r0.price * 100 →
     existingAlert (List.foldl (fun acc g => processGroup jobId acc g.2) s pre)
        jobId r0.price (List.getLastD (r1 :: rs) r0).price = false →
     priceDropAlert jobId r0.price (List.getLastD (r1 :: rs) r0).price
        ((r0.price - (List.getLastD (r1 :: rs) r0).price) / r0.price * 100)
        (List.getLastD (r1 :: rs) r0) ∈ (checkForPriceDrops s jobId).alerts) := by
  have hmem : (fid, r0 :: r1 :: rs) ∈ flightGroups (historyFor s jobId) := by
    rw [hsplit]
    exact List.mem_append_right _ (List.mem_cons_self _ _)
  have hlen := flightGroups_group_ge_two s jobId fid r0 r1 rs hmem
  have hck : checkForPriceDrops s jobId =
      List.foldl (fun acc g => processGroup jobId acc g.2) s
        (flightGroups (historyFor s jobId)) := by
    rw [checkForPriceDrops_eq, if_neg hlen]
  constructor
  · rw [hck, hsplit, List.foldl_append, List.foldl_cons]
    congr 1
    exact processGroup_char jobId _ r0 r1 rs
  · intro hpct hex
    rw [hck, hsplit, List.foldl_append, List.foldl_cons]
    show priceDropAlert jobId r0.price (List.getLastD (r1 :: rs) r0).price
        ((r0.price - (List.getLastD (r1 :: rs) r0).price) / r0.price * 100)
        (List.getLastD (r1 :: rs) r0) ∈
      (List.foldl (fun acc g => processGroup jobId acc g.2)
        (processGroup jobId
          (List.foldl (fun acc g => processGroup jobId acc g.2) s pre)
          (r0 :: r1 :: rs)) post).alerts
    rw [processGroup_char, if_pos ⟨hpct, hex⟩]
    apply mem_alerts_foldl
    simp

/-- Witness for C3 at the two boundary histories: single-group splits with
first price 100 and latest 90 (exactly 10 percent, the alert is created with
`percentageChange = -10`) and latest 90.01 (9.99 percent, store unchanged). -/
theorem drop_threshold_boundary_witness :
    (flightGroups (historyFor storeDrop10 "J")
        = [] ++ ("F1", [sampleEntry "F1" 100 0, sampleEntry "F1" 90 1]) :: [] ∧
     flightGroups (historyFor storeDrop999 "J")
        = [] ++ ("F1", [sampleEntry "F1" 100 0, sampleEntry "F1" (9001 / 100) 1]) :: []) ∧
    checkForPriceDrops storeDrop10 "J" =
      { storeDrop10 with alerts := [priceDropAlert "J" 100 90 10 (sampleEntry "F1" 90 1)] } ∧
    countTriple (checkForPriceDrops storeDrop10 "J") "J" 100 90 = 1 ∧
    checkForPriceDrops storeDrop999 "J" = storeDrop999 := by
  refine ⟨⟨by decide, by decide⟩, ?_, by decide, ?_⟩
  · rw [(drop_threshold_boundary storeDrop10 "J" "F1" [] []
      (sampleEntry "F1" 100 0) (sampleEntry "F1" 90 1) [] (by decide)).1]
    decide
  · rw [(drop_threshold_boundary storeDrop999 "J" "F1" [] []
      (sampleEntry "F1" 100 0) (sampleEntry "F1" (9001 / 100) 1) [] (by decide)).1]
    decide

/-! ### C6: cascade delete -/

/-- C6 counterexample: on a store holding job X with one history row and one
alert, a failure of the second deletion (`priceHistory.deleteMany`) leaves
the alert table already emptied and the history intact — the error
propagates, yet the store is NOT left unchanged, so the three deletions are
not all-or-nothing. -/
theorem cascade_delete_not_atomic_counterexample :
    (deleteJob failHistoryOp storeX "X").2.isSome = true ∧
    ¬ (deleteJob failHistoryOp storeX "X").1 = storeX ∧
    (deleteJob failHistoryOp storeX "X").1.alerts = [] ∧
    (deleteJob failHistoryOp storeX "X").1.history = storeX.history := by
  decide

/-- C6 amended: `deleteJob` issues the three deletions sequentially with no
transaction.  When none of them fails it removes every alert row, every
history row and the job record for the id — after which `getJobById` returns
the not-found signal — but when the history deletion fails, the already
executed alert deletion stays applied and the error propagates. -/
theorem cascade_delete_sequential (s : Store) (jid : String)
    (hj : (getJobById s jid).isSome = true) :
    (deleteJob noFail s jid).2 = none ∧
    (deleteJob noFail s jid).1.alerts
        = s.alerts.filter (fun a => !decide (a.monitoringJobId = jid)) ∧
    (deleteJob noFail s jid).1.history
        = s.history.filter (fun e => !decide (e.monitoringJobId = jid)) ∧
    (deleteJob noFail s jid).1.jobs = s.jobs.filter (fun j => !decide (j.id = jid)) ∧
    getJobById (deleteJob noFail s jid).1 jid = none ∧
    (deleteJob failHistoryOp s jid).1.alerts
        = s.alerts.filter (fun a => !decide (a.monitoringJobId = jid)) ∧
    (deleteJob failHistoryOp s jid).1.history = s.history ∧
    (deleteJob failHistoryOp s jid).2.isSome = true := by
  have hany : s.jobs.any (fun j => decide (j.id = jid)) = true := by
    unfold getJobById at hj
    rw [List.find?_isSome] at hj
    rw [List.any_eq_true]
    exact hj
  have hdel : deleteJob noFail s jid =
      ({ jobs := s.jobs.filter (fun j => !decide (j.id = jid)),
         history := s.history.filter (fun e => !decide (e.monitoringJobId = jid)),
         alerts := s.alerts.filter (fun a => !decide (a.monitoringJobId = jid)) }, none) := by
    unfold deleteJob noFail
    simp [hany]
  have hdelF : deleteJob failHistoryOp s jid =
      ({ s with alerts := s.alerts.filter (fun a => !decide (a.monitoringJobId = jid)) },
       some "priceHistory.deleteMany failed") := by
    unfold deleteJob failHistoryOp
    simp
  refine ⟨by rw [hdel], by rw [hdel], by rw [hdel], by rw [hdel], ?_,
    by rw [hdelF], by rw [hdelF], by simp [hdelF]⟩
  rw [hdel]
  unfold getJobById
  apply List.find?_eq_none.mpr
  intro x hx
  have hx2 := (List.mem_filter.mp hx).2
  simp only [Bool.not_eq_eq_eq_not, Bool.not_true, decide_eq_false_iff_not] at hx2
  simp [hx2]

/-- Witness for C6 (amended) at the concrete job-X store. -/
theorem cascade_delete_sequential_witness :
    (getJobById storeX "X").isSome = true ∧
    ((deleteJob noFail storeX "X").2 = none ∧
     (deleteJob noFail storeX "X").1.alerts
        = storeX.alerts.filter (fun a => !decide (a.monitoringJobId = "X")) ∧
     (deleteJob noFail storeX "X").1.history
        = storeX.history.filter (fun e => !decide (e.monitoringJobId = "X")) ∧
     (deleteJob noFail storeX "X").1.jobs
        = storeX.jobs.filter (fun j => !decide (j.id = "X")) ∧
     getJobById (deleteJob noFail storeX "X").1 "X" = none ∧
     (deleteJob failHistoryOp storeX "X").1.alerts
        = storeX.alerts.filter (fun a => !decide (a.monitoringJobId = "X")) ∧
     (deleteJob failHistoryOp storeX "X").1.history = storeX.history ∧
     (deleteJob failHistoryOp storeX "X").2.isSome = true) :=
  ⟨by decide, cascade_delete_sequential storeX "X" (by decide)⟩

/-! ### C8: drop-detector group error isolation -/

/-- C8 counterexample: on a history with two qualifying groups G1 then G2, a
store failure while evaluating G1 makes the whole `checkForPriceDrops` call
reject: no alert for G2's drop is recorded, although a failure-free run does
record it — the per-group failure is not isolated. -/
theorem group_failure_counterexample :
    (checkForPriceDropsF failG1 storeTwoGroups "J").2.isSome = true ∧
    existingAlert (checkForPriceDropsF failG1 storeTwoGroups "J").1 "J" 200 100 = false ∧
    existingAlert (checkForPriceDrops storeTwoGroups "J") "J" 200 100 = true := by
  decide

/-- C8 amended: with no store failures the fallible drop detector agrees with
`checkForPriceDrops` and reports no error; but when the store operation for a
qualifying group fails, the error propagates immediately out of the loop:
the remaining groups are never evaluated and the store is returned as it was
at the failure point. -/
theorem group_failure_aborts (s : Store) (jobId fid0 : String)
    (failOne : String → Bool) (r0 r1 : PriceHistoryEntry)
    (rs : List PriceHistoryEntry) (rest : List (String × List PriceHistoryEntry))
    (hone : failOne fid0 = true)
    (hq : 10 ≤ (r0.price - (List.getLastD (r1 :: rs) r0).price) / r0.price * 100) :
    checkForPriceDropsF failNone s jobId = (checkForPriceDrops s jobId, none) ∧
    runGroupsF failOne jobId ((fid0, r0 :: r1 :: rs) :: rest) s =
      (s, some "priceAlert store operation failed") := by
  constructor
  · have hrefine : ∀ (groups : List (String × List PriceHistoryEntry)) (s' : Store),
        runGroupsF failNone jobId groups s' =
          (List.foldl (fun acc g => processGroup jobId acc g.2) s' groups, none) := by
      intro groups
      induction groups with
      | nil => intro s'; rfl
      | cons g gs ih =>
        intro s'
        rcases g with ⟨fid, recs⟩
        have hpg : processGroupF failNone jobId s' fid recs =
            (processGroup jobId s' recs, none) := by
          unfold processGroupF processGroup failNone
          rcases recs with _ | ⟨a0, _ | ⟨a1, as⟩⟩
          · rfl
          · rfl
          · dsimp only
            split_ifs <;> first | rfl | contradiction
        simp only [runGroupsF, hpg]
        exact ih _
    have hF_eq : checkForPriceDropsF failNone s jobId =
        if (historyFor s jobId).length < 2 then (s, none)
        else runGroupsF failNone jobId (flightGroups (historyFor s jobId)) s := rfl
    rw [hF_eq, checkForPriceDrops_eq]
    by_cases hlen : (historyFor s jobId).length < 2
    · rw [if_pos hlen, if_pos hlen]
    · rw [if_neg hlen, if_neg hlen, hrefine]
  · have hpf : processGroupF failOne jobId s fid0 (r0 :: r1 :: rs) =
        (s, some "priceAlert store operation failed") := by
      unfold processGroupF
      dsimp only
      rw [if_pos hq, if_pos hone]
    simp only [runGroupsF, hpf]

/-- Witness for C8 (amended) at the concrete two-group history. -/
theorem group_failure_aborts_witness :
    failG1 "G1" = true ∧
    10 ≤ ((sampleEntry "G1" 100 0).price
        - (List.getLastD [sampleEntry "G1" 80 2] (sampleEntry "G1" 100 0)).price)
        / (sampleEntry "G1" 100 0).price * 100 ∧
    (checkForPriceDropsF failNone storeTwoGroups "J"
        = (checkForPriceDrops storeTwoGroups "J", none) ∧
     runGroupsF failG1 "J"
        [("G1", [sampleEntry "G1" 100 0, sampleEntry "G1" 80 2]),
         ("G2", [{ sampleEntry "G2" 200 1 with flightId := "G2" },
                 { sampleEntry "G2" 100 3 with flightId := "G2" }])] storeTwoGroups =
      (storeTwoGroups, some "priceAlert store operation failed")) :=
  ⟨rfl, by decide,
   group_failure_aborts storeTwoGroups "J" "G1" failG1 (sampleEntry "G1" 100 0)
     (sampleEntry "G1" 80 2) []
     [("G2", [{ sampleEntry "G2" 200 1 with flightId := "G2" },
              { sampleEntry "G2" 100 3 with flightId := "G2" }])]
     rfl (by decide)⟩

/-! ### C9: zero-price division guard -/

/-- C9 counterexample: a store built only through `recordPriceSnapshot` calls
carrying a zero-priced flight ends up with persisted rows of price 0 — so
zero prices are NOT rejected at ingestion — and `checkForPriceDrops` on that
job computes its percent change with divisor 0: the group whose first price
is 0 is not skipped before the division. -/
theorem zero_divisor_guard_counterexample :
    storeZero.history.map (fun e => e.price) = [0, 0] ∧
    (0 : ℚ) ∈ divisorsUsed storeZero "J" := by
  decide

/-- The body of `divisorsUsed` as a plain conditional. -/
theorem divisorsUsed_eq (s : Store) (jobId : String) :
    divisorsUsed s jobId =
      if (historyFor s jobId).length < 2 then []
      else (flightGroups (historyFor s jobId)).filterMap
        (fun g => match g.2 with
          | [] => none
          | [_] => none
          | r0 :: _ :: _ => some r0.price) := rfl

/-- C9 amended: no guard exists on either side: `recordPriceSnapshot`
persists a zero-priced flight's rows unchanged, and `checkForPriceDrops`
performs the percent-change computation with divisor `firstPrice` even when
that first observed price is 0 (in exact rational arithmetic the division
then yields 0, so no alert arises; the JavaScript float division yields a
non-finite value with the same no-alert outcome for non-negative prices). -/
theorem zero_price_unguarded (j : String) (t1 t2 : Nat) (bd1 bd2 : String)
    (f g : Flight) (hf : f.price.amount = 0) (hg : g.id = f.id) (ht : t1 ≤ t2) :
    ((recordPriceSnapshot (recordPriceSnapshot ⟨[], [], []⟩ j [f] t1 bd1).1
        j [g] t2 bd2).1.history).map (fun e => e.price) = [0, g.price.amount] ∧
    (0 : ℚ) ∈ divisorsUsed
      (recordPriceSnapshot (recordPriceSnapshot ⟨[], [], []⟩ j [f] t1 bd1).1
        j [g] t2 bd2).1 j := by
  have h1 : (recordPriceSnapshot ⟨[], [], []⟩ j [f] t1 bd1).1 =
      ⟨[], [entryOfFlight j t1 bd1 f], []⟩ := by
    simp [recordPriceSnapshot, sortFlightsByPrice, sortByKey, List.insertionSort,
      List.orderedInsert]
  have h2 : (recordPriceSnapshot (⟨[], [entryOfFlight j t1 bd1 f], []⟩ : Store)
      j [g] t2 bd2).1 =
      ⟨[], [entryOfFlight j t1 bd1 f, entryOfFlight j t2 bd2 g], []⟩ := by
    simp [recordPriceSnapshot, sortFlightsByPrice, sortByKey, List.insertionSort,
      List.orderedInsert]
  rw [h1, h2]
  constructor
  · simp [entryOfFlight, hf]
  · have hhist : historyFor (⟨[], [entryOfFlight j t1 bd1 f, entryOfFlight j t2 bd2 g], []⟩ :
        Store) j = [entryOfFlight j t1 bd1 f, entryOfFlight j t2 bd2 g] := by
      unfold historyFor sortByKey
      simp [entryOfFlight, List.insertionSort, List.orderedInsert, keyLE, ht]
    have hids : flightIdsInOrder [entryOfFlight j t1 bd1 f, entryOfFlight j t2 bd2 g]
        = [f.id] := by
      simp [flightIdsInOrder, entryOfFlight, hg]
    have hgr : flightGroups [entryOfFlight j t1 bd1 f, entryOfFlight j t2 bd2 g]
        = [(f.id, [entryOfFlight j t1 bd1 f, entryOfFlight j t2 bd2 g])] := by
      unfold flightGroups
      rw [hids]
      simp [List.filter_cons, entryOfFlight, hg]
    rw [divisorsUsed_eq, hhist, if_neg (by norm_num), hgr]
    simp [List.filterMap_cons, entryOfFlight, hf]

/-- Witness for C9 (amended) with the concrete zero-priced flight. -/
theorem zero_price_unguarded_witness :
    zeroFlight.price.amount = 0 ∧ zeroFlight.id = zeroFlight.id ∧ (0 : Nat) ≤ 1 ∧
    (((recordPriceSnapshot (recordPriceSnapshot ⟨[], [], []⟩ "J" [zeroFlight] 0 "2026-02-16").1
          "J" [zeroFlight] 1 "2026-02-17").1.history).map (fun e => e.price)
        = [0, zeroFlight.price.amount] ∧
     (0 : ℚ) ∈ divisorsUsed
        (recordPriceSnapshot (recordPriceSnapshot ⟨[], [], []⟩ "J" [zeroFlight] 0 "2026-02-16").1
          "J" [zeroFlight] 1 "2026-02-17").1 "J") :=
  ⟨by decide, rfl, by decide,
   zero_price_unguarded "J" 0 1 "2026-02-16" "2026-02-17" zeroFlight zeroFlight
     (by decide) rfl (by decide)⟩

end FlightSearchApp
